import Mathlib

/-!
# Verification of the multi-step production agent core

Shallow embedding of the agent orchestration engine of the
`multi-step-agent` repository:

* `backend/agent/tool_validation.py` — per-tool argument schemas
  (pydantic models with `extra = "ignore"`) and `validate_tool_args`;
* `backend/agent/core/graph.py` — the ReAct loop (`react_reasoning`,
  `react_action`, `should_continue_react`), the legacy sequential executor
  (`execute_plan`), the output-validation phase (`validate_output`) and the
  tool-call wrapper (`_safe_tool_call`);
* `backend/agent/agent.py` — answer finalisation in `run` and `stream`;
* `backend/agent/memory/conversation.py` — the SQLite-backed
  conversation memory (`add_message`, `get_recent`, `count_messages`,
  `should_summarize`);
* `backend/mcp_server.py` — the registered capability set (tool names).

Python dictionaries are modelled as association lists, JSON values as the
inductive `Value`, machine floats that only ever hold exact small ratios
as `ℚ`, and the asynchronous tool/LLM calls as explicit outcome oracles
passed to the phase functions.  Wall-clock timestamps are threaded as
opaque parameters.  All definitions are executable.
-/

namespace AgentCore

/-- A JSON-like value as produced by tools and the LLM (Python `Any` that
is JSON-serialisable). `null` is Python `None`. -/
inductive Value where
  | str (s : String)
  | int (n : Int)
  | bool (b : Bool)
  | null
  | list (xs : List Value)
  | dict (xs : List (String × Value))

/-- A Python `dict[str, Any]` of tool-call arguments, as an association
list (first binding wins on lookup). -/
abbrev Args := List (String × Value)

/-- Lookup of a key in an argument dict (`dict.get(k)`). -/
def Args.find : Args → String → Option Value
  | [], _ => none
  | (k, v) :: rest, key => if k = key then some v else Args.find rest key

/-- `dict.get(k, default)`. -/
def Args.findD (args : Args) (key : String) (d : Value) : Value :=
  (args.find key).getD d

/-- `json.dumps` of a value (whitespace/indentation abstracted: no claim
inspects the rendered text beyond its first characters). -/
def jsonRender : Value → String
  | .str s => "\"" ++ s ++ "\""
  | .int n => toString n
  | .bool b => if b then "true" else "false"
  | .null => "null"
  | .list xs => "[" ++ String.intercalate ", " (xs.attach.map fun v => jsonRender v.1) ++ "]"
  | .dict ps =>
      "\x7b" ++
        String.intercalate ", "
          (ps.attach.map fun p => "\"" ++ p.1.1 ++ "\": " ++ jsonRender p.1.2) ++
      "\x7d"
decreasing_by
  · have := List.sizeOf_lt_of_mem v.2
    simp only [Value.list.sizeOf_spec]
    omega
  · obtain ⟨⟨k, w⟩, hp⟩ := p
    have := List.sizeOf_lt_of_mem hp
    simp only [Value.dict.sizeOf_spec, Prod.mk.sizeOf_spec] at *
    omega

/-- Python `str.lower()` on one character (ASCII; the agent's tool names
and the `"finish"` sentinel are ASCII). -/
def pyLowerChar (c : Char) : Char :=
  if 'A' ≤ c ∧ c ≤ 'Z' then Char.ofNat (c.toNat + 32) else c

/-- Python `str.lower()` (ASCII). -/
def pyLower (s : String) : String := ⟨s.data.map pyLowerChar⟩

/-- Python `str.strip()`: remove leading and trailing whitespace. -/
def pyStrip (s : String) : String :=
  ⟨((s.data.dropWhile Char.isWhitespace).reverse.dropWhile
      Char.isWhitespace).reverse⟩

/-- Python `str.startswith(p)`. -/
def pyStartsWith (s p : String) : Bool := p.data.isPrefixOf s.data

/-- `str(value)`: Python renders `None` as `"None"`, booleans capitalised,
a string as itself; container rendering is abstracted by `jsonRender`. -/
def Value.pyStr : Value → String
  | .str s => s
  | .int n => toString n
  | .bool b => if b then "True" else "False"
  | .null => "None"
  | v => jsonRender v

/-!
## `backend/agent/tool_validation.py`

The pydantic argument models.  Every model sets `extra = "ignore"`, so
undeclared keys never participate in validation and never appear in the
dump; `model_dump(exclude_none=True)` drops `None`-valued fields.
-/

/-- The pydantic model classes of `tool_validation.py`. -/
inductive ArgModel where
  | emptyArgs            -- EmptyArgs
  | stationArgs          -- StationArgs: station_id: str, min_length=1
  | optionalStationArgs  -- OptionalStationArgs: station_id: Optional[str]
  | statusArgs           -- StatusArgs: status: Literal[...]
  | updateStationArgs    -- UpdateStationArgs: station_id + status
  | recentRunsArgs       -- RecentRunsArgs: limit: int = 5, 1..500
  | alarmLogArgs         -- AlarmLogArgs: limit: int = 10, 1..500
  deriving Repr, DecidableEq

/-- The allowed station statuses (`Literal["running", "idle",
"maintenance", "error"]`). -/
def statusLiterals : List String := ["running", "idle", "maintenance", "error"]

/-- Validate a required `str` field with `min_length=1`. -/
def validateRequiredStr (args : Args) (key : String) : Except String String :=
  match args.find key with
  | some (.str s) =>
      if 1 ≤ s.length then .ok s
      else .error ("String should have at least 1 character: " ++ key)
  | some _ => .error ("Input should be a valid string: " ++ key)
  | none => .error ("Field required: " ++ key)

/-- Validate a required `Literal` status field. -/
def validateStatus (args : Args) : Except String String :=
  match args.find "status" with
  | some (.str s) =>
      if s ∈ statusLiterals then .ok s
      else .error "Input should be 'running', 'idle', 'maintenance' or 'error'"
  | some _ => .error "Input should be a valid string: status"
  | none => .error "Field required: status"

/-- Validate an `int` field with bounds `ge=1, le=500` and a default used
when the key is absent. -/
def validateLimit (args : Args) (default : Int) : Except String Int :=
  match args.find "limit" with
  | some (.int n) =>
      if 1 ≤ n ∧ n ≤ 500 then .ok n
      else .error "Input should be between 1 and 500: limit"
  | some _ => .error "Input should be a valid integer: limit"
  | none => .ok default

/-- Run one pydantic model on a raw argument dict: parse the declared
fields (ignoring every undeclared key) and dump the declared fields with
`exclude_none=True`. -/
def runArgModel : ArgModel → Args → Except String Args
  | .emptyArgs, _ => .ok []
  | .stationArgs, args =>
      (validateRequiredStr args "station_id").map
        fun s => [("station_id", .str s)]
  | .optionalStationArgs, args =>
      match args.find "station_id" with
      | none => .ok []
      | some .null => .ok []   -- Optional default None, dropped by exclude_none
      | some (.str s) =>
          if 1 ≤ s.length then .ok [("station_id", .str s)]
          else .error "String should have at least 1 character: station_id"
      | some _ => .error "Input should be a valid string: station_id"
  | .statusArgs, args =>
      (validateStatus args).map fun s => [("status", .str s)]
  | .updateStationArgs, args =>
      match validateRequiredStr args "station_id", validateStatus args with
      | .ok s, .ok st => .ok [("station_id", .str s), ("status", .str st)]
      | .error e, _ => .error e
      | _, .error e => .error e
  | .recentRunsArgs, args =>
      (validateLimit args 5).map fun n => [("limit", .int n)]
  | .alarmLogArgs, args =>
      (validateLimit args 10).map fun n => [("limit", .int n)]

/-- The argument keys a model declares (everything else is `extra` and
ignored). -/
def ArgModel.declaredKeys : ArgModel → List String
  | .emptyArgs => []
  | .stationArgs => ["station_id"]
  | .optionalStationArgs => ["station_id"]
  | .statusArgs => ["status"]
  | .updateStationArgs => ["station_id", "status"]
  | .recentRunsArgs => ["limit"]
  | .alarmLogArgs => ["limit"]

/-- `VALIDATOR_MAP` of `tool_validation.py`. -/
def VALIDATOR_MAP : List (String × ArgModel) :=
  [ ("get_all_stations", .emptyArgs),
    ("get_station", .stationArgs),
    ("get_station_status", .stationArgs),
    ("get_production_metrics", .emptyArgs),
    ("calculate_oee", .optionalStationArgs),
    ("find_bottleneck", .emptyArgs),
    ("get_stations_by_status", .statusArgs),
    ("get_maintenance_schedule", .emptyArgs),
    ("update_station_status", .updateStationArgs),
    ("get_recent_runs", .recentRunsArgs),
    ("get_alarm_log", .alarmLogArgs),
    ("get_station_energy", .stationArgs),
    ("get_scrap_summary", .emptyArgs),
    ("get_product_mix", .emptyArgs) ]

/-- `VALIDATOR_MAP.get(tool_name)`. -/
def lookupValidator (tool : String) : Option ArgModel :=
  (VALIDATOR_MAP.find? (fun p => p.1 = tool)).map Prod.snd

/-- `validate_tool_args` — returns `(validated_args, error_message)`:
on success `(some args, none)`, on failure or unknown tool
`(none, some message)`. -/
def validate_tool_args (tool : String) (rawArgs : Args) :
    Option Args × Option String :=
  match lookupValidator tool with
  | none => (none, some ("Unknown tool: " ++ tool))
  | some model =>
      match runArgModel model rawArgs with
      | .ok va => (some va, none)
      | .error e => (none, some e)

/-!
## `backend/mcp_server.py` — the registered capability set

The names of the `@mcp.tool()` functions the MCP server exposes; this is
what `tool_client.get_langchain_tools()` returns at runtime.
-/

/-- Names of the tools registered on the MCP server. -/
def mcpServerToolNames : List String :=
  [ "get_all_stations", "get_station", "get_station_status",
    "update_station_status", "get_stations_by_status",
    "get_production_metrics", "calculate_oee", "find_bottleneck",
    "get_maintenance_schedule", "get_recent_runs", "get_alarm_log",
    "get_station_energy", "get_scrap_summary", "get_product_mix" ]

/-!
## `backend/agent/core/graph.py` — tool calls and the phase functions

Floats (`confidence`, durations) are modelled as `ℚ`, treating the ratio
arithmetic exactly; asynchronous calls are modelled by outcome oracles.
-/

/-- `ToolResult` (`backend/agent/core/state.py`): `data` is the tool's
return value, `none` standing for Python `None`. -/
structure ToolResult where
  tool_name : String
  success : Bool
  data : Option Value
  error : String
  execution_time_ms : ℚ

/-- What an awaited tool call can do: return a value, exceed the
30-second timeout, or raise. -/
inductive CallOutcome where
  | ok (data : Option Value)
  | timeout
  | exc (msg : String)

/-- `_safe_tool_call` of `graph.py`: wraps the awaited MCP call and
always returns a structured `ToolResult`, converting a timeout or an
exception into `success := false` — no exception escapes. -/
def safe_tool_call (toolName : String) (outcome : CallOutcome) (durationMs : ℚ) :
    ToolResult :=
  match outcome with
  | .ok data =>
      { tool_name := toolName, success := true, data := data, error := "",
        execution_time_ms := durationMs }
  | .timeout =>
      { tool_name := toolName, success := false, data := none,
        error := "Tool call timed out after 30 seconds",
        execution_time_ms := durationMs }
  | .exc msg =>
      { tool_name := toolName, success := false, data := none, error := msg,
        execution_time_ms := durationMs }

/-- One entry of the LLM-produced `tool_plan` (legacy mode). -/
structure ToolPlanItem where
  name : String
  args : Args

/-- `ReActStep` (`backend/agent/core/state.py`); `action_input` is the
parsed JSON dict. -/
structure ReActStep where
  iteration : Nat
  thought : String
  action : String
  action_input : Args
  observation : String

/-- `OutputValidation` (`backend/agent/core/state.py`). -/
structure OutputValidation where
  is_complete : Bool
  is_accurate : Bool
  is_safe : Bool
  confidence : ℚ
  missing_info : List String
  warnings : List String

/-- The legacy-shaped aliases the executors write into `state["data"]`. -/
structure LegacyData where
  tools : List (String × Option Value) := []
  metrics : Option (Option Value) := none
  bottleneck : Option (Option Value) := none
  oee : Option (Option Value) := none
  tool_errors : List (String × String) := []

/-- The fields of `AgentState` the executors, router and output
validation read or write (prompt-rendering fields are not modelled). -/
structure AgentState where
  tool_plan : List ToolPlanItem := []
  react_steps : List ReActStep := []
  react_iteration : Nat := 0
  react_max_iterations : Nat := 5
  tool_results : List (String × ToolResult) := []
  observations : List String := []
  data : LegacyData := {}

/-- Python dict assignment `d[k] = v` on an association list. -/
def updateAssoc {α : Type} (l : List (String × α)) (key : String) (v : α) :
    List (String × α) :=
  if l.any (fun p => p.1 == key) then
    l.map (fun p => if p.1 == key then (key, v) else p)
  else
    l ++ [(key, v)]

/-- The structured reply `parse_react_response` extracts from the model
(`thought`, `action`, `action_input`). -/
structure ParsedReAct where
  thought : String := ""
  action : String := ""
  action_input : Args := []

/-- Oracle giving each awaited tool call's outcome and duration. -/
abbrev ToolOracle := String → Args → CallOutcome × ℚ

/-- `react_reasoning` of `graph.py`: increments `react_iteration` and
appends a new step with an empty observation, built from the parsed
model reply (the prompt build and LLM call are the oracle's argument). -/
def react_reasoning (parsed : ParsedReAct) (st : AgentState) : AgentState :=
  let iteration := st.react_iteration + 1
  let step : ReActStep :=
    { iteration := iteration, thought := parsed.thought,
      action := parsed.action, action_input := parsed.action_input,
      observation := "" }
  { st with react_steps := st.react_steps ++ [step],
            react_iteration := iteration }

/-- Set the observation of the last recorded step (`current_step` is a
reference to `react_steps[-1]` in the source, mutated in place). -/
def setLastObservation : List ReActStep → String → List ReActStep
  | [], _ => []
  | [s], obs => [{ s with observation := obs }]
  | s :: rest, obs => s :: setLastObservation rest obs

/-- Observation text for a successful tool result: `json.dumps` for
dict/list data, `str` otherwise, `None` rendered as in Python. -/
def renderToolData : Option Value → String
  | some (.dict ps) => jsonRender (.dict ps)
  | some (.list xs) => jsonRender (.list xs)
  | some v => v.pyStr
  | none => "None"

/-- `react_action` of `graph.py`.  `validTools` is the registered
capability set (`agent.tool_client.get_langchain_tools()` names);
`oracle` resolves the awaited tool call. -/
def react_action (validTools : List String) (oracle : ToolOracle)
    (st : AgentState) : AgentState :=
  match st.react_steps.getLast? with
  | none => st
  | some currentStep =>
    let action := pyStrip (pyLower currentStep.action)
    let actionInput := currentStep.action_input
    if action = "finish" then
      let answer := (actionInput.findD "answer" (.str "")).pyStr
      { st with react_steps :=
          setLastObservation st.react_steps ("Final Answer: " ++ answer) }
    else if action ∉ validTools then
      let notFoundMsg := "Error: Tool '" ++ action ++ "' not found. Available tools: " ++
        String.intercalate ", " validTools
      { st with react_steps := setLastObservation st.react_steps notFoundMsg }
    else
      match validate_tool_args action actionInput with
      | (_, some validationError) =>
        let invalidMsg := "Error: Invalid arguments for " ++ action ++ ": " ++
          validationError
        { st with react_steps := setLastObservation st.react_steps invalidMsg }
      | (validatedArgs, none) =>
        let oc := oracle action (validatedArgs.getD [])
        let result := safe_tool_call action oc.1 oc.2
        if result.success then
          let newData := { st.data with
            tools := updateAssoc st.data.tools action result.data,
            metrics := if action = "get_production_metrics" then some result.data
                       else st.data.metrics,
            bottleneck := if action = "find_bottleneck" then some result.data
                          else st.data.bottleneck,
            oee := if action = "calculate_oee" then some result.data
                   else st.data.oee }
          { st with
            data := newData,
            tool_results := updateAssoc st.tool_results action result,
            observations :=
              st.observations ++ [action ++ ": Retrieved successfully"],
            react_steps :=
              setLastObservation st.react_steps (renderToolData result.data) }
        else
          { st with
            data := { st.data with
              tool_errors := st.data.tool_errors ++ [(action, result.error)] },
            observations :=
              st.observations ++ [action ++ ": Error - " ++ result.error],
            react_steps :=
              setLastObservation st.react_steps ("Error: " ++ result.error) }

/-- `should_continue_react` of `graph.py`: route to `"validate_output"`
once `react_iteration >= react_max_iterations` or when the last step's
lower-cased, stripped action is `"finish"`; else `"react_reasoning"`. -/
def should_continue_react (st : AgentState) : String :=
  if st.react_max_iterations ≤ st.react_iteration then "validate_output"
  else
    match st.react_steps.getLast? with
    | some lastStep =>
        if pyStrip (pyLower lastStep.action) = "finish" then "validate_output"
        else "react_reasoning"
    | none => "react_reasoning"

/-- One pass of the compiled graph's ReAct cycle:
`react_reasoning → react_action`.  `reason i` is the parsed model reply
for the round entered with `react_iteration = i`. -/
def reactRound (validTools : List String) (reason : Nat → ParsedReAct)
    (tools : ToolOracle) (st : AgentState) : AgentState :=
  react_action validTools tools (react_reasoning (reason st.react_iteration) st)

/-- The ReAct loop as wired in the graph: run a round, then follow
`should_continue_react` until it routes to output validation.  `fuel` is
only a termination bound for the recursion; `runReact` supplies enough
fuel that the guard, not the fuel, decides every exit. -/
def reactLoop (validTools : List String) (reason : Nat → ParsedReAct)
    (tools : ToolOracle) : Nat → AgentState → AgentState
  | 0, st => st
  | fuel + 1, st =>
      let st' := reactRound validTools reason tools st
      if should_continue_react st' = "react_reasoning" then
        reactLoop validTools reason tools fuel st'
      else st'

/-- Entry into the ReAct loop from the `create_plan` router. -/
def runReact (validTools : List String) (reason : Nat → ParsedReAct)
    (tools : ToolOracle) (st : AgentState) : AgentState :=
  reactLoop validTools reason tools
    (st.react_max_iterations - st.react_iteration) st

/-- One iteration of the `for item in tool_plan` loop of `execute_plan`,
folding over `(tool_results, observations, legacy_data)`. -/
def executePlanItem (oracle : ToolOracle)
    (acc : List (String × ToolResult) × List String × LegacyData)
    (item : ToolPlanItem) :
    List (String × ToolResult) × List String × LegacyData :=
  let (toolResults, observations, legacyData) := acc
  if item.name = "" then acc
  else
    match validate_tool_args item.name item.args with
    | (_, some validationError) =>
        (toolResults,
         observations ++ ["Skipped " ++ item.name ++ ": " ++ validationError],
         legacyData)
    | (validatedArgs, none) =>
        let oc := oracle item.name (validatedArgs.getD [])
        let result := safe_tool_call item.name oc.1 oc.2
        let toolResults := updateAssoc toolResults item.name result
        if result.success then
          (toolResults,
           observations ++ [item.name ++ ": Retrieved successfully"],
           { legacyData with
             tools := updateAssoc legacyData.tools item.name result.data,
             metrics := if item.name = "get_production_metrics" then some result.data
                        else legacyData.metrics,
             bottleneck := if item.name = "find_bottleneck" then some result.data
                           else legacyData.bottleneck,
             oee := if item.name = "calculate_oee" then some result.data
                    else legacyData.oee })
        else
          (toolResults,
           observations ++ [item.name ++ ": Error - " ++ result.error],
           { legacyData with
             tool_errors := legacyData.tool_errors ++ [(item.name, result.error)] })

/-- `execute_plan` of `graph.py` (legacy sequential executor): skipped
when the plan is empty; otherwise folds the plan, building a fresh
`tool_results`/`observations` and updating the legacy data aliases. -/
def execute_plan (oracle : ToolOracle) (st : AgentState) : AgentState :=
  if st.tool_plan.isEmpty then st
  else
    let folded :=
      st.tool_plan.foldl (executePlanItem oracle)
        (([] : List (String × ToolResult)), ([] : List String), st.data)
    { st with tool_results := folded.1, observations := folded.2.1,
              data := folded.2.2 }

/-- The ReAct branch of `validate_output` (`graph.py` lines 626–663). -/
def validateOutputReact (reactSteps : List ReActStep) : OutputValidation :=
  let successfulActions := reactSteps.countP (fun step =>
    (!(step.observation == "")) && (!pyStartsWith step.observation "Error:"))
  let totalActions := reactSteps.countP (fun step => !(step.action == "finish"))
  let finished := reactSteps.any (fun step => pyLower step.action == "finish")
  let missingInfo :=
    (reactSteps.filter (fun step => pyStartsWith step.observation "Error:")).map
      (fun step => step.observation)
  let baseConfidence : ℚ :=
    if 0 < totalActions then (successfulActions : ℚ) / ((max totalActions 1 : Nat) : ℚ)
    else 1
  let confidence := if finished then baseConfidence else baseConfidence * (4 / 5)
  let warnings :=
    if finished then []
    else ["Agent reached max iterations without finishing"]
  { is_complete := missingInfo.isEmpty && finished,
    is_accurate := true, is_safe := true,
    confidence := confidence, missing_info := missingInfo,
    warnings := warnings }

/-- The legacy branch of `validate_output` (`graph.py` lines 666–695). -/
def validateOutputLegacy (toolResults : List (String × ToolResult)) :
    OutputValidation :=
  let successfulTools := toolResults.countP (fun p => p.2.success)
  let totalTools := toolResults.length
  let missingInfo :=
    (toolResults.filter (fun p => !p.2.success)).map
      (fun p => p.1 ++ " failed: " ++ p.2.error)
  let warnings :=
    (toolResults.filter (fun p => p.2.success && p.2.data.isNone)).map
      (fun p => p.1 ++ " returned no data")
  let confidence : ℚ := (successfulTools : ℚ) / ((max totalTools 1 : Nat) : ℚ)
  { is_complete := missingInfo.isEmpty,
    is_accurate := true, is_safe := true,
    confidence := confidence, missing_info := missingInfo,
    warnings := warnings }

/-- `validate_output` of `graph.py`: the direct path (no tool plan and no
ReAct steps) reports full confidence; otherwise the ReAct branch when
ReAct steps exist, else the legacy branch over `tool_results`. -/
def validate_output (st : AgentState) : OutputValidation :=
  if st.tool_plan.isEmpty && st.react_steps.isEmpty then
    { is_complete := true, is_accurate := true, is_safe := true,
      confidence := 1, missing_info := [], warnings := [] }
  else if !st.react_steps.isEmpty then
    validateOutputReact st.react_steps
  else
    validateOutputLegacy st.tool_results

/-!
## `backend/agent/agent.py` — answer finalisation

`ProductionAgent.run` replaces empty/blank synthesis output with a fixed
fallback; `ProductionAgent.stream` accumulates the streamed chunks and
stores the concatenation.
-/

/-- The fixed friendly fallback string of `ProductionAgent.run`. -/
def friendlyFallback : String := "Happy to help. Could you share a bit more detail?"

/-- Answer stored by the non-streaming path (`agent.py` lines 219–221):
`if not answer or not answer.strip(): answer = fallback`. -/
def run_store_answer (modelAnswer : String) : String :=
  if modelAnswer = "" ∨ pyStrip modelAnswer = "" then friendlyFallback
  else modelAnswer

/-- Answer stored by the streaming path (`agent.py` lines 316–353) when
streaming succeeds: the concatenation of the yielded chunks, verbatim. -/
def stream_store_answer (chunks : List String) : String :=
  String.join chunks

/-!
## `backend/agent/memory/conversation.py` — the conversation memory

The `messages` table is modelled as the list of rows in insertion order;
`AUTOINCREMENT` ids follow insertion order, so `ORDER BY id DESC` is the
reverse of that list.  Timestamps are not modelled.
-/

/-- A row of the `messages` table (id and timestamp implicit in the
position). -/
structure MessageRow where
  thread_id : String
  role : String
  content : String

/-- `add_message`: `INSERT INTO messages ...`. -/
def add_message (db : List MessageRow) (threadId role content : String) :
    List MessageRow :=
  db ++ [{ thread_id := threadId, role := role, content := content }]

/-- `get_recent`: select the thread's rows `ORDER BY id DESC LIMIT n`,
then return them reversed (chronological), projected to
`(role, content)`. -/
def get_recent (db : List MessageRow) (threadId : String) (lim : Nat) :
    List (String × String) :=
  ((((db.filter (fun m => m.thread_id == threadId)).reverse).take lim).reverse).map
    (fun m => (m.role, m.content))

/-- `count_messages`: `SELECT COUNT(*) ... WHERE thread_id = ?`. -/
def count_messages (db : List MessageRow) (threadId : String) : Nat :=
  (db.filter (fun m => m.thread_id == threadId)).length

/-- The arithmetic of `should_summarize` on a message count
(`count >= interval and count % interval == 0`). -/
def shouldSummarizeCount (interval count : Nat) : Bool :=
  interval ≤ count && count % interval == 0

/-- `should_summarize`: the count formula applied to the thread's
message count. -/
def should_summarize (interval : Nat) (db : List MessageRow)
    (threadId : String) : Bool :=
  shouldSummarizeCount interval (count_messages db threadId)

/-!
## Claim-specific auxiliary definitions

Formalisations of claim wording (for refinement comparison) and concrete
demonstration inputs used by counterexamples and witnesses.
-/

/-- A demonstration legacy-mode state: a 3-tool plan with 2 successful
results out of 3. -/
def c4DemoState : AgentState :=
  { tool_plan :=
      [ { name := "get_production_metrics", args := [] },
        { name := "find_bottleneck", args := [] },
        { name := "calculate_oee", args := [] } ],
    react_steps := [],
    tool_results :=
      [ ("get_production_metrics",
          { tool_name := "get_production_metrics", success := true,
            data := some (.dict []), error := "", execution_time_ms := 10 }),
        ("find_bottleneck",
          { tool_name := "find_bottleneck", success := false, data := none,
            error := "Tool call timed out after 30 seconds",
            execution_time_ms := 30000 }),
        ("calculate_oee",
          { tool_name := "calculate_oee", success := true,
            data := some (.dict []), error := "", execution_time_ms := 12 }) ] }

/-- The ReAct confidence formula exactly as claim C1 words it: successful
non-`"finish"` ReAct steps over non-`"finish"` steps with the denominator
clamped via `max(total, 1)`, multiplied by `0.8` exactly when no recorded
step has action `"finish"`. -/
def c1SpecConfidence (reactSteps : List ReActStep) : ℚ :=
  let nonFinish := reactSteps.filter (fun step => !(step.action == "finish"))
  let successful := nonFinish.countP (fun step =>
    (!(step.observation == "")) && (!pyStartsWith step.observation "Error:"))
  let base : ℚ := (successful : ℚ) / ((max nonFinish.length 1 : Nat) : ℚ)
  if reactSteps.any (fun step => step.action == "finish") then base
  else base * (4 / 5)

/-- A one-step ReAct run that immediately issues a successful `finish`. -/
def c1CexSteps : List ReActStep :=
  [{ iteration := 1, thought := "I can answer directly", action := "finish",
     action_input := [("answer", .str "All stations are nominal")],
     observation := "Final Answer: All stations are nominal" }]

/-- ReAct steps counted as successful by output validation: non-empty
observation not starting with `"Error:"` (`finish` steps included). -/
def reactSuccessfulActions (reactSteps : List ReActStep) : Nat :=
  reactSteps.countP (fun step =>
    (!(step.observation == "")) && (!pyStartsWith step.observation "Error:"))

/-- Steps whose action is not literally `"finish"` (no normalisation). -/
def reactTotalActions (reactSteps : List ReActStep) : Nat :=
  reactSteps.countP (fun step => !(step.action == "finish"))

/-- Whether some step's lower-cased (unstripped) action is `"finish"`. -/
def reactFinished (reactSteps : List ReActStep) : Bool :=
  reactSteps.any (fun step => pyLower step.action == "finish")

/-- A run whose final action is `"Finish "` (trailing whitespace): the
router's lower-case-and-strip test exits the loop, the validator's
lower-case-only test does not see it as finished. -/
def c9CexState : AgentState :=
  { react_steps :=
      [{ iteration := 1, thought := "Wrapping up", action := "Finish ",
         action_input := [("answer", .str "Line is healthy")],
         observation := "Final Answer: Line is healthy" }],
    react_iteration := 1,
    react_max_iterations := 5 }

/-- The streaming-path behaviour exactly as claim C5 words it: blank
accumulated output is replaced by the friendly fallback. -/
def c5SpecStreamAnswer (chunks : List String) : String :=
  let joined := String.join chunks
  if joined = "" ∨ pyStrip joined = "" then friendlyFallback else joined

/-- Every `tool_results` entry is keyed by a registered capability name
whose arguments passed schema validation. -/
def ToolResultsValidated (tr : List (String × ToolResult)) : Prop :=
  ∀ p ∈ tr, p.1 ∈ mcpServerToolNames ∧
    ∃ raw va, validate_tool_args p.1 raw = (some va, none)

/-- A model reply that immediately finishes. -/
def c2DemoReason : Nat → ParsedReAct := fun _ =>
  { thought := "I can answer now", action := "finish",
    action_input := [("answer", .str "All good")] }

/-!
## Theorems
-/

/-- C7: `should_summarize(thread_id)` is true iff the thread's message
count is at least `summary_interval` and divisible by it; with interval
12 it fires at counts 12, 24, 36 and not at 13 or 23. -/
theorem c7_should_summarize_iff :
    (∀ interval count : Nat,
        shouldSummarizeCount interval count = true ↔
          interval ≤ count ∧ count % interval = 0) ∧
    (∀ (interval : Nat) (db : List MessageRow) (threadId : String),
        should_summarize interval db threadId =
          shouldSummarizeCount interval (count_messages db threadId)) ∧
    shouldSummarizeCount 12 12 = true ∧ shouldSummarizeCount 12 24 = true ∧
    shouldSummarizeCount 12 36 = true ∧ shouldSummarizeCount 12 13 = false ∧
    shouldSummarizeCount 12 23 = false := by
  refine ⟨?_, fun _ _ _ => rfl, by decide, by decide, by decide, by decide,
    by decide⟩
  intro interval count
  simp [shouldSummarizeCount]

/-- C8: persisting a user message then an assistant message and reading
back `get_recent(thread_id, limit=2)` returns exactly those two messages,
user first (chronological order), for any prior database contents. -/
theorem c8_persist_turn_roundtrip (db : List MessageRow)
    (threadId question answer : String) :
    get_recent
        (add_message (add_message db threadId "user" question)
          threadId "assistant" answer)
        threadId 2 =
      [("user", question), ("assistant", answer)] := by
  simp [get_recent, add_message, List.filter_append]

/-- C6: a tool call that exceeds the 30-second timeout yields a
`ToolResult` with `success = false` whose error message contains
`"timed out"`; `_safe_tool_call` returns this result instead of
propagating the exception. -/
theorem c6_timeout_surfaced (toolName : String) (durationMs : ℚ) :
    (safe_tool_call toolName .timeout durationMs).success = false ∧
    (safe_tool_call toolName .timeout durationMs).error =
      "Tool call timed out after 30 seconds" ∧
    ∃ pre post,
      (safe_tool_call toolName .timeout durationMs).error =
        pre ++ "timed out" ++ post :=
  ⟨rfl, rfl, "Tool call ", " after 30 seconds", by rfl⟩

/-- C4: in legacy mode, output validation's confidence is the number of
successful tool results over `max(total, 1)`: exactly `2/3` for 2
successes out of 3 results, and exactly `1` on the direct path (no tool
plan, no ReAct steps) with no division error. -/
theorem c4_legacy_confidence :
    (∀ st : AgentState, st.tool_plan ≠ [] → st.react_steps = [] →
        st.tool_results.length = 3 →
        st.tool_results.countP (fun p => p.2.success) = 2 →
        (validate_output st).confidence = 2 / 3) ∧
    (∀ st : AgentState, st.tool_plan = [] → st.react_steps = [] →
        (validate_output st).confidence = 1) := by
  constructor
  · intro st hplan hsteps hlen hsucc
    simp [validate_output, validateOutputLegacy, hplan, hsteps, hlen, hsucc]
  · intro st hplan hsteps
    simp [validate_output, hplan, hsteps]

/-- Witness for C4 at concrete inputs. -/
theorem c4_legacy_confidence_witness :
    (validate_output c4DemoState).confidence = 2 / 3 ∧
    (validate_output { } : OutputValidation).confidence = 1 :=
  ⟨c4_legacy_confidence.1 c4DemoState (List.cons_ne_nil _ _) rfl rfl rfl,
   c4_legacy_confidence.2 { } rfl rfl⟩

theorem Args.find_cons_ne (k key : String) (v : Value) (args : Args)
    (h : k ≠ key) : Args.find ((k, v) :: args) key = args.find key := by
  simp [Args.find, h]

theorem validateRequiredStr_cons_ne (k key : String) (v : Value) (args : Args)
    (h : k ≠ key) :
    validateRequiredStr ((k, v) :: args) key = validateRequiredStr args key := by
  simp [validateRequiredStr, Args.find_cons_ne k key v args h]

theorem validateStatus_cons_ne (k : String) (v : Value) (args : Args)
    (h : k ≠ "status") :
    validateStatus ((k, v) :: args) = validateStatus args := by
  simp [validateStatus, Args.find_cons_ne k "status" v args h]

theorem validateLimit_cons_ne (k : String) (v : Value) (args : Args)
    (d : Int) (h : k ≠ "limit") :
    validateLimit ((k, v) :: args) d = validateLimit args d := by
  simp [validateLimit, Args.find_cons_ne k "limit" v args h]

/-- Prepending a binding for an undeclared key does not change what any
argument model parses. -/
theorem runArgModel_cons_undeclared (m : ArgModel) (k : String) (v : Value)
    (args : Args) (h : k ∉ m.declaredKeys) :
    runArgModel m ((k, v) :: args) = runArgModel m args := by
  cases m <;> simp [ArgModel.declaredKeys] at h <;>
    simp [runArgModel, validateRequiredStr_cons_ne, validateStatus_cons_ne,
      validateLimit_cons_ne, Args.find_cons_ne, h]

theorem Args.find_eq_none (va : Args) (key : String)
    (h : ∀ p ∈ va, p.1 ≠ key) : va.find key = none := by
  induction va with
  | nil => rfl
  | cons p rest ih =>
      have hp := h p (List.mem_cons_self p rest)
      simp only [Args.find, if_neg hp]
      exact ih fun q hq => h q (List.mem_cons_of_mem p hq)

/-- Every key an argument model dumps is one of its declared keys. -/
theorem runArgModel_keys (m : ArgModel) (args va : Args)
    (h : runArgModel m args = .ok va) :
    ∀ p ∈ va, p.1 ∈ m.declaredKeys := by
  cases m with
  | emptyArgs =>
      simp only [runArgModel] at h
      injection h with h'; subst h'; simp
  | stationArgs =>
      simp only [runArgModel] at h
      rcases hv : validateRequiredStr args "station_id" with e | s <;>
        rw [hv] at h <;> simp only [Except.map] at h
      · cases h
      · injection h with h'; subst h'; simp [ArgModel.declaredKeys]
  | optionalStationArgs =>
      simp only [runArgModel] at h
      split at h
      · injection h with h'; subst h'; simp
      · injection h with h'; subst h'; simp
      · split at h
        · injection h with h'; subst h'; simp [ArgModel.declaredKeys]
        · cases h
      · cases h
  | statusArgs =>
      simp only [runArgModel] at h
      rcases hv : validateStatus args with e | s <;>
        rw [hv] at h <;> simp only [Except.map] at h
      · cases h
      · injection h with h'; subst h'; simp [ArgModel.declaredKeys]
  | updateStationArgs =>
      simp only [runArgModel] at h
      split at h
      · injection h with h'; subst h'; simp [ArgModel.declaredKeys]
      · cases h
      · cases h
  | recentRunsArgs =>
      simp only [runArgModel] at h
      rcases hv : validateLimit args 5 with e | n <;>
        rw [hv] at h <;> simp only [Except.map] at h
      · cases h
      · injection h with h'; subst h'; simp [ArgModel.declaredKeys]
  | alarmLogArgs =>
      simp only [runArgModel] at h
      rcases hv : validateLimit args 10 with e | n <;>
        rw [hv] at h <;> simp only [Except.map] at h
      · cases h
      · injection h with h'; subst h'; simp [ArgModel.declaredKeys]

/-- C10: for every tool registered in `VALIDATOR_MAP` and every argument
dict, adding an extra key that the tool's schema does not declare never
changes the validation outcome (in particular it never causes an error),
and the extra key is absent from the validated arguments. -/
theorem c10_extra_keys_ignored (tool : String) (m : ArgModel) (args : Args)
    (k : String) (v : Value)
    (hlook : lookupValidator tool = some m)
    (hk : k ∉ m.declaredKeys) :
    validate_tool_args tool ((k, v) :: args) = validate_tool_args tool args ∧
    ∀ va, (validate_tool_args tool ((k, v) :: args)).1 = some va →
      va.find k = none := by
  constructor
  · simp [validate_tool_args, hlook, runArgModel_cons_undeclared m k v args hk]
  · intro va hva
    simp only [validate_tool_args, hlook] at hva
    rcases hrun : runArgModel m ((k, v) :: args) with e | va' <;>
      rw [hrun] at hva <;> simp at hva
    subst hva
    exact Args.find_eq_none va' k fun p hp hpk => by
      have := runArgModel_keys m ((k, v) :: args) va' hrun p hp
      rw [hpk] at this
      exact hk this

/-- Witness for C10: the `get_station` schema with a valid `station_id`
and an undeclared `verbose` key. -/
theorem c10_extra_keys_ignored_witness :
    validate_tool_args "get_station"
        (("verbose", .bool true) :: [("station_id", .str "STN-1")]) =
      validate_tool_args "get_station" [("station_id", .str "STN-1")] ∧
    ∀ va, (validate_tool_args "get_station"
        (("verbose", .bool true) :: [("station_id", .str "STN-1")])).1 =
          some va → va.find "verbose" = none :=
  c10_extra_keys_ignored "get_station" .stationArgs
    [("station_id", .str "STN-1")] "verbose" (.bool true) rfl (by decide)

/-- C1 counterexample: on a run consisting of a single successful
`finish` step, the code's output validation computes confidence 1 (its
numerator counts the `finish` step and its zero-denominator branch
returns 1.0), while the claimed formula — successful non-`finish` steps
over `max(non-finish steps, 1)` — gives 0. -/
theorem c1_react_confidence_counterexample :
    (validateOutputReact c1CexSteps).confidence = 1 ∧
    c1SpecConfidence c1CexSteps = 0 ∧
    (validateOutputReact c1CexSteps).confidence ≠ c1SpecConfidence c1CexSteps := by
  refine ⟨?_, ?_, ?_⟩ <;>
    simp +decide [validateOutputReact, c1SpecConfidence, c1CexSteps]

/-- C1 (amended): in ReAct mode, output validation's confidence equals
the number of steps with a non-empty observation not starting with
`"Error:"` (`finish` steps included) divided by `max(n, 1)` where `n`
counts the steps whose action is not literally `"finish"` — except that
when `n = 0` the ratio is replaced by 1 — multiplied by `0.8` exactly
when no step's lower-cased action equals `"finish"`, in which case the
max-iterations warning is appended. -/
theorem c1_react_confidence_amended (reactSteps : List ReActStep) :
    (validateOutputReact reactSteps).confidence =
      (if 0 < reactTotalActions reactSteps then
        (reactSuccessfulActions reactSteps : ℚ) /
          ((max (reactTotalActions reactSteps) 1 : Nat) : ℚ)
      else 1) * (if reactFinished reactSteps then 1 else 4 / 5) ∧
    (validateOutputReact reactSteps).warnings =
      (if reactFinished reactSteps then []
       else ["Agent reached max iterations without finishing"]) := by
  simp only [validateOutputReact, reactSuccessfulActions, reactTotalActions,
    reactFinished]
  constructor
  · split
    · exact (mul_one _).symm
    · rfl
  · trivial

/-!
### C9 — finish detection disagreement between the router and validation
-/

/-- C9 counterexample: the run exits the ReAct loop because the last
action lower-cases and strips to `"finish"` (not because of the
iteration cap: 1 < 5), yet output validation adds the max-iterations
warning and multiplies the confidence by 0.8 — its `finished` test
lower-cases but does not strip. -/
theorem c9_finish_classification_counterexample :
    should_continue_react c9CexState = "validate_output" ∧
    c9CexState.react_iteration < c9CexState.react_max_iterations ∧
    (validateOutputReact c9CexState.react_steps).warnings =
      ["Agent reached max iterations without finishing"] ∧
    (validateOutputReact c9CexState.react_steps).confidence = 4 / 5 := by
  refine ⟨by decide, by decide, ?_, ?_⟩ <;>
    simp +decide [validateOutputReact, c9CexState]

/-- C9 (amended): for every state whose most recent step's action
lower-cases exactly to `"finish"` (with no surrounding whitespace), the
router exits the loop and output validation classifies the run as
finished: it appends no warning and applies no 0.8 multiplier. -/
theorem c9_finish_classification (st : AgentState) (lastStep : ReActStep)
    (hlast : st.react_steps.getLast? = some lastStep)
    (hfin : pyLower lastStep.action = "finish") :
    should_continue_react st = "validate_output" ∧
    (validateOutputReact st.react_steps).warnings = [] ∧
    (validateOutputReact st.react_steps).confidence =
      (if 0 < reactTotalActions st.react_steps then
        (reactSuccessfulActions st.react_steps : ℚ) /
          ((max (reactTotalActions st.react_steps) 1 : Nat) : ℚ)
      else 1) := by
  have hmem : lastStep ∈ st.react_steps := by
    rcases List.mem_getLast?_eq_getLast (Option.mem_def.mpr hlast) with ⟨hne, hEq⟩
    rw [hEq]
    exact List.getLast_mem hne
  have hfinished : reactFinished st.react_steps = true := by
    simp only [reactFinished, List.any_eq_true]
    exact ⟨lastStep, hmem, by simp [hfin]⟩
  refine ⟨?_, ?_, ?_⟩
  · simp only [should_continue_react, hlast]
    split
    · rfl
    · rw [hfin]
      decide
  · have h := (c1_react_confidence_amended st.react_steps).2
    rw [hfinished] at h
    simpa using h
  · have h := (c1_react_confidence_amended st.react_steps).1
    rw [hfinished] at h
    simpa [reactSuccessfulActions, reactTotalActions] using h

/-- Witness for C9 (amended) on a run ending with action `"Finish"`. -/
theorem c9_finish_classification_witness :
    should_continue_react
        { react_steps :=
            [{ iteration := 1, thought := "t", action := "Finish",
               action_input := [], observation := "Final Answer: ok" }],
          react_iteration := 1, react_max_iterations := 5 } =
      "validate_output" ∧
    (validateOutputReact
        [{ iteration := 1, thought := "t", action := "Finish",
           action_input := [], observation := "Final Answer: ok" }]).warnings =
      [] := by
  have h := c9_finish_classification
    { react_steps :=
        [{ iteration := 1, thought := "t", action := "Finish",
           action_input := [], observation := "Final Answer: ok" }],
      react_iteration := 1, react_max_iterations := 5 }
    { iteration := 1, thought := "t", action := "Finish",
      action_input := [], observation := "Final Answer: ok" }
    rfl (by decide)
  exact ⟨h.1, h.2.1⟩

/-!
### C5 — blank-answer fallback
-/

/-- C5 counterexample: when the synthesis stream yields no content
chunks, the streaming path stores the empty string verbatim — the
claimed fallback substitution exists only in the non-streaming path. -/
theorem c5_blank_answer_counterexample :
    stream_store_answer [] = "" ∧
    c5SpecStreamAnswer [] = friendlyFallback ∧
    stream_store_answer [] ≠ c5SpecStreamAnswer [] := by
  decide

/-- C5 (amended): the non-streaming run path replaces empty or
whitespace-only synthesis output with the fixed friendly fallback and
never stores a blank answer; the streaming path stores the concatenation
of the streamed chunks verbatim (possibly empty). -/
theorem c5_run_answer_never_blank (modelAnswer : String)
    (chunks : List String) :
    (pyStrip modelAnswer = "" → run_store_answer modelAnswer = friendlyFallback) ∧
    (pyStrip modelAnswer ≠ "" → run_store_answer modelAnswer = modelAnswer) ∧
    pyStrip (run_store_answer modelAnswer) ≠ "" ∧
    stream_store_answer chunks = String.join chunks := by
  have hfb : pyStrip friendlyFallback ≠ "" := by decide
  refine ⟨?_, ?_, ?_, rfl⟩
  · intro h
    simp [run_store_answer, h]
  · intro h
    have hne : ¬(modelAnswer = "" ∨ pyStrip modelAnswer = "") := by
      rintro (rfl | hblank)
      · exact h (by decide)
      · exact h hblank
    simp [run_store_answer, hne]
  · by_cases hblank : modelAnswer = "" ∨ pyStrip modelAnswer = ""
    · simpa [run_store_answer, hblank] using hfb
    · have : run_store_answer modelAnswer = modelAnswer := by
        simp [run_store_answer, hblank]
      rw [this]
      rcases not_or.mp hblank with ⟨-, h2⟩
      exact h2

/-- Witness for C5 (amended) at the empty synthesis output. -/
theorem c5_run_answer_never_blank_witness :
    run_store_answer "" = friendlyFallback :=
  (c5_run_answer_never_blank "" []).1 (by decide)

/-!
### C3 — every `tool_results` key is a validated registered tool
-/

theorem mem_updateAssoc {α : Type} {l : List (String × α)} {key : String}
    {v : α} {p : String × α} (hp : p ∈ updateAssoc l key v) :
    p ∈ l ∨ p = (key, v) := by
  unfold updateAssoc at hp
  split at hp
  · rcases List.mem_map.mp hp with ⟨q, hq, hEq⟩
    by_cases h : q.1 == key
    · right; rw [← hEq]; simp [h]
    · left; rw [← hEq]; simp [h]; exact hq
  · rcases List.mem_append.mp hp with h | h
    · left; exact h
    · right; simpa using h

/-- Every key of `VALIDATOR_MAP` names a tool the MCP server registers. -/
theorem validatorMap_keys_registered :
    ∀ q ∈ VALIDATOR_MAP, q.1 ∈ mcpServerToolNames := by decide

/-- A second component of `none` from `validate_tool_args` comes with
validated arguments in the first component. -/
theorem validate_ok_shape (tool : String) (raw : Args) (o : Option Args)
    (h : validate_tool_args tool raw = (o, none)) : ∃ va, o = some va := by
  unfold validate_tool_args at h
  rcases hl : lookupValidator tool with _ | m <;> rw [hl] at h
  · have h2 := congrArg Prod.snd h
    simp at h2
  · have h' : (match runArgModel m raw with
        | Except.ok va => ((some va : Option Args), (none : Option String))
        | Except.error e => (none, some e)) = (o, none) := h
    rcases hr : runArgModel m raw with e | va <;> rw [hr] at h'
    · have h2 := congrArg Prod.snd h'
      simp at h2
    · exact ⟨va, (congrArg Prod.fst h').symm⟩

/-- Validation success implies the tool is registered on the server. -/
theorem validate_ok_mem_registry (tool : String) (raw : Args) (o : Option Args)
    (h : validate_tool_args tool raw = (o, none)) :
    tool ∈ mcpServerToolNames := by
  unfold validate_tool_args at h
  rcases hl : lookupValidator tool with _ | m <;> rw [hl] at h
  · have h2 := congrArg Prod.snd h
    simp at h2
  · unfold lookupValidator at hl
    rcases hf : VALIDATOR_MAP.find? (fun p => p.1 = tool) with _ | q <;>
      rw [hf] at hl
    · simp at hl
    · have hqmem : q ∈ VALIDATOR_MAP := List.mem_of_find?_eq_some hf
      have hqkey : q.1 = tool := by
        have := List.find?_some hf
        simpa using this
      rw [← hqkey]
      exact validatorMap_keys_registered q hqmem

/-- One legacy-executor plan item preserves the `tool_results`
invariant: an entry is only added after `validate_tool_args` succeeds. -/
theorem executePlanItem_validated (oracle : ToolOracle)
    (acc : List (String × ToolResult) × List String × LegacyData)
    (item : ToolPlanItem) (h : ToolResultsValidated acc.1) :
    ToolResultsValidated (executePlanItem oracle acc item).1 := by
  obtain ⟨tr, obs, ld⟩ := acc
  by_cases hname : item.name = ""
  · simpa [executePlanItem, hname] using h
  · rcases hval : validate_tool_args item.name item.args with ⟨o, err⟩
    rcases err with _ | msg
    · obtain ⟨va, rfl⟩ := validate_ok_shape item.name item.args o hval
      simp only [executePlanItem, hname, hval, ite_false]
      have hgoal :
          ∀ q ∈ updateAssoc tr item.name
              (safe_tool_call item.name
                (oracle item.name (((some va : Option Args)).getD [])).1
                (oracle item.name (((some va : Option Args)).getD [])).2),
            q.1 ∈ mcpServerToolNames ∧
              ∃ raw va', validate_tool_args q.1 raw = (some va', none) := by
        intro q hq
        rcases mem_updateAssoc hq with hmem | rfl
        · exact h q hmem
        · exact ⟨validate_ok_mem_registry item.name item.args (some va) hval,
            item.args, va, hval⟩
      split <;> exact hgoal
    · simpa [executePlanItem, hname, hval] using h

/-- C3: every key of `tool_results` is a tool name registered on the MCP
server whose arguments passed schema validation — the ReAct action step
preserves this invariant (a failed registry lookup or argument validation
adds no entry), and the legacy executor establishes it for the fresh
`tool_results` it builds. -/
theorem c3_tool_results_validated :
    (∀ (oracle : ToolOracle) (st : AgentState),
        ToolResultsValidated st.tool_results →
        ToolResultsValidated
          (react_action mcpServerToolNames oracle st).tool_results) ∧
    (∀ (oracle : ToolOracle) (st : AgentState),
        ToolResultsValidated st.tool_results →
        ToolResultsValidated (execute_plan oracle st).tool_results) := by
  constructor
  · intro oracle st hInv
    rcases hLast : st.react_steps.getLast? with _ | currentStep
    · simpa [react_action, hLast] using hInv
    · simp only [react_action, hLast]
      split
      · exact hInv
      · split
        · exact hInv
        · rename_i hfin hnotin
          rw [not_not] at hnotin
          split
          · exact hInv
          · rename_i validatedArgs heq
            split
            · intro p hp
              rcases mem_updateAssoc hp with hmem | rfl
              · exact hInv p hmem
              · obtain ⟨va, hva⟩ := validate_ok_shape _ _ validatedArgs heq
                subst hva
                exact ⟨hnotin, currentStep.action_input, va, heq⟩
            · exact hInv
  · intro oracle st hInv
    unfold execute_plan
    split
    · exact hInv
    · have hfold :
          ∀ (plan : List ToolPlanItem)
            (acc : List (String × ToolResult) × List String × LegacyData),
            ToolResultsValidated acc.1 →
            ToolResultsValidated (plan.foldl (executePlanItem oracle) acc).1 := by
        intro plan
        induction plan with
        | nil => intro acc hacc; exact hacc
        | cons item rest ih =>
            intro acc hacc
            exact ih _ (executePlanItem_validated oracle acc item hacc)
      exact hfold st.tool_plan ([], [], st.data) (fun _ hp => nomatch hp)

/-- Witness for C3: starting from the empty `tool_results`, both
executors maintain the invariant (here with every tool call timing
out). -/
theorem c3_tool_results_validated_witness :
    ToolResultsValidated
      (react_action mcpServerToolNames (fun _ _ => (.timeout, 0))
        { }).tool_results ∧
    ToolResultsValidated
      (execute_plan (fun _ _ => (.timeout, 0)) { }).tool_results :=
  ⟨c3_tool_results_validated.1 (fun _ _ => (.timeout, 0)) { }
      (fun _ hp => nomatch hp),
   c3_tool_results_validated.2 (fun _ _ => (.timeout, 0)) { }
      (fun _ hp => nomatch hp)⟩

/-!
### C2 — ReAct loop boundedness and first-finish exit
-/

theorem setLastObservation_map_action (l : List ReActStep) (obs : String) :
    (setLastObservation l obs).map (fun s => s.action) =
      l.map (fun s => s.action) := by
  induction l with
  | nil => rfl
  | cons t ts ih =>
      cases ts with
      | nil => rfl
      | cons t' ts' =>
          simp only [setLastObservation, List.map_cons, List.cons.injEq,
            true_and]
          simpa using ih

theorem react_action_iteration (vt : List String) (o : ToolOracle)
    (st : AgentState) :
    (react_action vt o st).react_iteration = st.react_iteration := by
  rcases hLast : st.react_steps.getLast? with _ | cur
  · simp [react_action, hLast]
  · simp only [react_action, hLast]
    repeat' split
    all_goals rfl

theorem react_action_max (vt : List String) (o : ToolOracle)
    (st : AgentState) :
    (react_action vt o st).react_max_iterations = st.react_max_iterations := by
  rcases hLast : st.react_steps.getLast? with _ | cur
  · simp [react_action, hLast]
  · simp only [react_action, hLast]
    repeat' split
    all_goals rfl

theorem react_action_map_action (vt : List String) (o : ToolOracle)
    (st : AgentState) :
    (react_action vt o st).react_steps.map (fun s => s.action) =
      st.react_steps.map (fun s => s.action) := by
  rcases hLast : st.react_steps.getLast? with _ | cur
  · simp [react_action, hLast]
  · simp only [react_action, hLast]
    repeat' split
    all_goals simp [setLastObservation_map_action]

theorem reactRound_iteration (vt : List String) (reason : Nat → ParsedReAct)
    (tools : ToolOracle) (st : AgentState) :
    (reactRound vt reason tools st).react_iteration =
      st.react_iteration + 1 := by
  unfold reactRound
  rw [react_action_iteration]
  rfl

theorem reactRound_max (vt : List String) (reason : Nat → ParsedReAct)
    (tools : ToolOracle) (st : AgentState) :
    (reactRound vt reason tools st).react_max_iterations =
      st.react_max_iterations := by
  unfold reactRound
  rw [react_action_max]
  rfl

theorem reactRound_map_action (vt : List String) (reason : Nat → ParsedReAct)
    (tools : ToolOracle) (st : AgentState) :
    (reactRound vt reason tools st).react_steps.map (fun s => s.action) =
      st.react_steps.map (fun s => s.action) ++
        [(reason st.react_iteration).action] := by
  unfold reactRound
  rw [react_action_map_action]
  simp [react_reasoning]

theorem getLast?_map_eq {α β : Type} (f : α → β) :
    ∀ l : List α, (l.map f).getLast? = l.getLast?.map f
  | [] => rfl
  | [_] => rfl
  | a :: b :: l => by
      rw [List.map_cons, List.map_cons, List.getLast?_cons_cons,
        List.getLast?_cons_cons, ← List.map_cons f b l, getLast?_map_eq f (b :: l)]

/-- When the router says `"react_reasoning"`, the cap is not reached and
the last step (if any) is not a `finish`. -/
theorem continue_facts (st : AgentState)
    (h : should_continue_react st = "react_reasoning") :
    st.react_iteration < st.react_max_iterations ∧
    ∀ lastStep, st.react_steps.getLast? = some lastStep →
      pyStrip (pyLower lastStep.action) ≠ "finish" := by
  unfold should_continue_react at h
  split at h
  · exact absurd h (by decide)
  · rename_i hcap
    refine ⟨by omega, ?_⟩
    intro lastStep hl hfin
    simp only [hl] at h
    rw [if_pos hfin] at h
    exact absurd h (by decide)

/-- Loop invariant: given enough fuel and a strict cap margin, the loop
exits with the iteration bounded by the cap, the cap unchanged, and all
actions except the final one not `finish`-like. -/
theorem reactLoop_invariant (vt : List String) (reason : Nat → ParsedReAct)
    (tools : ToolOracle) :
    ∀ (fuel : Nat) (st : AgentState),
      st.react_iteration < st.react_max_iterations →
      st.react_max_iterations - st.react_iteration ≤ fuel →
      (∀ a ∈ st.react_steps.map (fun s => s.action),
          pyStrip (pyLower a) ≠ "finish") →
      (reactLoop vt reason tools fuel st).react_iteration ≤
          st.react_max_iterations ∧
      (reactLoop vt reason tools fuel st).react_max_iterations =
          st.react_max_iterations ∧
      ∃ rest lastA,
        (reactLoop vt reason tools fuel st).react_steps.map
            (fun s => s.action) = rest ++ [lastA] ∧
        ∀ a ∈ rest, pyStrip (pyLower a) ≠ "finish" := by
  intro fuel
  induction fuel with
  | zero =>
      intro st hlt hfuel _
      exfalso
      omega
  | succ fuel ih =>
      intro st hlt hfuel hclean
      have hiter' := reactRound_iteration vt reason tools st
      have hmax' := reactRound_max vt reason tools st
      have hmap' := reactRound_map_action vt reason tools st
      simp only [reactLoop]
      by_cases hc :
          should_continue_react (reactRound vt reason tools st) =
            "react_reasoning"
      · rw [if_pos hc]
        obtain ⟨hlt', hlastOk⟩ := continue_facts _ hc
        have hclean' :
            ∀ a ∈ (reactRound vt reason tools st).react_steps.map
                (fun s => s.action), pyStrip (pyLower a) ≠ "finish" := by
          intro a ha
          rw [hmap'] at ha
          rcases List.mem_append.mp ha with hmem | hmem
          · exact hclean a hmem
          · have haEq : a = (reason st.react_iteration).action := by
              simpa using hmem
            subst haEq
            have hne :
                (reactRound vt reason tools st).react_steps.map
                  (fun s => s.action) ≠ [] := by
              rw [hmap']
              simp
            rcases hgl : (reactRound vt reason tools st).react_steps.getLast?
              with _ | lastStep
            · rw [List.getLast?_eq_none_iff] at hgl
              rw [hgl] at hne
              simp at hne
            · have hact : lastStep.action = (reason st.react_iteration).action := by
                have h1 := getLast?_map_eq (fun s : ReActStep => s.action)
                  (reactRound vt reason tools st).react_steps
                rw [hmap', List.getLast?_concat, hgl] at h1
                simpa using h1.symm
              rw [← hact]
              exact hlastOk lastStep hgl
        have hres := ih (reactRound vt reason tools st) hlt'
          (by rw [hmax', hiter'] at hlt' ⊢; omega) hclean'
        refine ⟨?_, ?_, hres.2.2⟩
        · rw [← hmax']
          exact hres.1
        · rw [← hmax']
          exact hres.2.1
      · rw [if_neg hc]
        refine ⟨by omega, hmax', ?_⟩
        exact ⟨st.react_steps.map (fun s => s.action),
          (reason st.react_iteration).action, hmap', hclean⟩

/-- C2: starting a ReAct run from a fresh state (iteration 0, no steps,
positive cap), the loop never drives `react_iteration` beyond
`react_max_iterations`, and it exits at the first step whose action
case-insensitively equals `"finish"` — no step with such an action is
followed by a further reasoning step. -/
theorem c2_react_loop_bounded (vt : List String) (reason : Nat → ParsedReAct)
    (tools : ToolOracle) (st : AgentState)
    (hiter : st.react_iteration = 0) (hsteps : st.react_steps = [])
    (hmax : 1 ≤ st.react_max_iterations) :
    (runReact vt reason tools st).react_iteration ≤
        st.react_max_iterations ∧
    ∀ pre s suf, (runReact vt reason tools st).react_steps = pre ++ s :: suf →
      pyLower s.action = "finish" → suf = [] := by
  have hres := reactLoop_invariant vt reason tools
    (st.react_max_iterations - st.react_iteration) st (by omega) le_rfl
    (by rw [hsteps]; intro a ha; simp at ha)
  refine ⟨hres.1, ?_⟩
  obtain ⟨-, -, rest, lastA, hmap, hrest⟩ := hres
  intro pre s suf hdecomp hfin
  by_contra hsuf
  have hmap2 : (runReact vt reason tools st).react_steps.map
      (fun t => t.action) =
        pre.map (fun t => t.action) ++ s.action :: suf.map (fun t => t.action) := by
    rw [hdecomp]
    simp
  rcases List.eq_nil_or_concat' (suf.map (fun t => t.action)) with hnil | ⟨L, b, hLb⟩
  · exact hsuf (List.map_eq_nil_iff.mp hnil)
  · rw [hLb] at hmap2
    have hmap3 : (runReact vt reason tools st).react_steps.map
        (fun t => t.action) =
          (pre.map (fun t => t.action) ++ s.action :: L) ++ [b] := by
      rw [hmap2]
      simp
    have hrestEq : rest = pre.map (fun t => t.action) ++ s.action :: L := by
      have h1 := congrArg List.dropLast (hmap.symm.trans hmap3)
      rwa [List.dropLast_concat, List.dropLast_concat] at h1
    have hsmem : s.action ∈ rest := by
      rw [hrestEq]
      exact List.mem_append_right _ (List.mem_cons_self _ _)
    have := hrest s.action hsmem
    rw [hfin] at this
    exact this (by decide)

/-- Witness for C2: a fresh default state (cap 5) with a model that
finishes immediately stays within the iteration cap. -/
theorem c2_react_loop_bounded_witness :
    (runReact mcpServerToolNames c2DemoReason (fun _ _ => (.timeout, 0))
      { }).react_iteration ≤ 5 :=
  (c2_react_loop_bounded mcpServerToolNames c2DemoReason
    (fun _ _ => (.timeout, 0)) { } rfl rfl (by decide)).1

end AgentCore
